import Mathlib

/-! The metric transform of the New Relic OpenTelemetry exporter.

A shallow embedding of `newrelic/internal/transform/metric.go`: the functions `Record`,
`sum`, `minMaxSumCountValues`, `minMaxSumCount` and `attributes`, together with the
parts of the OpenTelemetry and New Relic SDK data types they read and write.

Conventions of the embedding.

* A Go function returning `(T, error)` returns a pair whose second component is an
  `Option GoError`; `none` is the nil error.  `Record` returns
  `Option telemetry.Metric × Option GoError`, and `none` is the nil metric.
* The methods of an aggregator are Go methods on an object with hidden state, so each
  is a function from the state of the aggregator to a result and the next state, and
  the transform passes that state along.
* A Go `map[string]interface{}` is a list of entries with pairwise distinct keys;
  `AttrMap.set` is the map assignment `m[k] = v`, `AttrMap.get` the map read.
* Records are well formed: the descriptor and the label set are present (not nil).
-/

set_option linter.dupNamespace false

namespace Transform

/-! ## Errors -/

/-- A Go `error` value, identified by its message. -/
structure GoError where
  msg : String
deriving DecidableEq, Repr

/-- The error returned when a transformation of an unimplemented aggregator is attempted. -/
def ErrUnimplementedAgg : GoError := ⟨"unimplemented aggregator"⟩

/-! ## Numbers -/

/-- An IEEE-754 binary64 value (Go `float64`), held as its 64 bit pattern. -/
abbrev Float64 := Nat

/-- A `core.Number`: 64 raw bits, read according to a `NumberKind`. -/
abbrev Number := Nat

/-- The numeric kind of an instrument (`core.NumberKind`). -/
inductive NumberKind where
  | Int64NumberKind
  | Float64NumberKind
  | Uint64NumberKind
deriving DecidableEq, Repr

/-- The index of the highest set bit of `n` (0 for `n < 2`), found in at most `fuel`
halvings. -/
def highBit : Nat → Nat → Nat
  | 0, _ => 0
  | fuel + 1, n => if n < 2 then 0 else highBit fuel (n / 2) + 1

/-- Modelled from the spec: the Go conversion `float64(n)` of a natural number below
`2 ^ 64`, rounding to nearest, ties to even; the language runtime is not part of the
repository.  The result is the bit pattern of the binary64 value. -/
def float64OfNat (n : Nat) : Float64 :=
  if n = 0 then 0
  else
    let e := highBit 64 n
    if e ≤ 52 then (e + 1023) * 2 ^ 52 + (n * 2 ^ (52 - e) - 2 ^ 52)
    else
      let sh := e - 52
      let q := n / 2 ^ sh
      let r := n % 2 ^ sh
      let half := 2 ^ (sh - 1)
      let q1 := if half < r ∨ (r = half ∧ q % 2 = 1) then q + 1 else q
      (e + 1023) * 2 ^ 52 + (q1 - 2 ^ 52)

/-- Modelled from the spec: the Go conversion `float64(i)` of a signed integer. -/
def float64OfInt (i : Int) : Float64 :=
  if i < 0 then 2 ^ 63 + float64OfNat i.natAbs else float64OfNat i.toNat

/-- The raw bits of a number read as an `int64` (two's complement). -/
def Number.AsInt64 (n : Number) : Int :=
  let raw : Nat := n % 2 ^ 64
  if raw < 2 ^ 63 then (raw : Int) else (raw : Int) - 2 ^ 64

/-- The raw bits of a number read as a `uint64`. -/
def Number.AsUint64 (n : Number) : Nat := n % 2 ^ 64

/-- The raw bits of a number read as a `float64`. -/
def Number.AsFloat64 (n : Number) : Float64 := n % 2 ^ 64

/-- Modelled from the spec: `core.Number.CoerceToFloat64`, the float coercion of a raw
number by the declared numeric kind; the OpenTelemetry API package is not part of the
repository. -/
def Number.CoerceToFloat64 (n : Number) (kind : NumberKind) : Float64 :=
  match kind with
  | .Int64NumberKind => float64OfInt n.AsInt64
  | .Uint64NumberKind => float64OfNat n.AsUint64
  | .Float64NumberKind => n.AsFloat64

/-! ## Labels, resources and descriptors -/

/-- Modelled from the spec: a label or resource value (`core.Value`), a scalar
that is a string, a bool, an integer or a float.  The same type stands for the Go
`interface{}` that boxes such a scalar. -/
inductive Value where
  | STRING (s : String)
  | BOOL (b : Bool)
  | INT64 (i : Int)
  | FLOAT64 (bits : Float64)
deriving DecidableEq, Repr

/-- The boxing `core.Value.AsInterface`: the scalar itself. -/
def Value.AsInterface (v : Value) : Value := v

/-- A `core.KeyValue`. -/
structure KeyValue where
  Key : String
  Value : Value
deriving DecidableEq, Repr

/-- A `resource.Resource`, read through `Attributes()`. -/
structure Resource where
  Attributes : List KeyValue
deriving DecidableEq, Repr

/-- A `metric.Descriptor`, read through its accessors. -/
structure Descriptor where
  Name : String
  Unit : String
  Description : String
  NumberKind : NumberKind
  Resource : Resource
deriving DecidableEq, Repr

/-- The label set of a record (`metricsdk.Labels`): what its iterator yields, in order. -/
abbrev Labels := List KeyValue

/-! ## Attribute maps -/

/-- A Go `map[string]interface{}`. -/
abbrev AttrMap := List (String × Value)

/-- The Go `make(map[string]interface{}, capacity)`: an empty map; the capacity is a hint. -/
def AttrMap.make (_capacity : Nat) : AttrMap := []

/-- The map assignment `m[k] = v`. -/
def AttrMap.set : AttrMap → String → Value → AttrMap
  | [], k, v => [(k, v)]
  | (k1, v1) :: m, k, v => if k1 = k then (k, v) :: m else (k1, v1) :: AttrMap.set m k v

/-- The map read `m[k]`; `none` when the key is absent. -/
def AttrMap.get : AttrMap → String → Option Value
  | [], _ => none
  | (k1, v1) :: m, k => if k1 = k then some v1 else AttrMap.get m k

/-- The keys of a map. -/
def AttrMap.keys (m : AttrMap) : List String := m.map Prod.fst

/-- The constants of the transform package declared next to `metric.go`. -/
structure Consts where
  serviceNameAttrKey : String
  instrumentationProviderAttrKey : String
  instrumentationProviderAttrValue : String
  collectorNameAttrKey : String
  collectorNameAttrValue : String
deriving DecidableEq, Repr

/-- Embeds `attributes`. -/
def attributes (c : Consts) (service : String) (desc : Descriptor) (labels : Labels) :
    AttrMap :=
  let resAttrs := desc.Resource.Attributes
  let iter := labels
  let attrs := AttrMap.make (5 + iter.length + resAttrs.length)
  let attrs := attrs.set "unit" (.STRING desc.Unit)
  let attrs := attrs.set "description" (.STRING desc.Description)
  let attrs := resAttrs.foldl (fun m kv => m.set kv.Key kv.Value.AsInterface) attrs
  let attrs := iter.foldl (fun m kv => m.set kv.Key kv.Value.AsInterface) attrs
  let attrs := attrs.set c.serviceNameAttrKey (.STRING service)
  let attrs := attrs.set c.instrumentationProviderAttrKey
    (.STRING c.instrumentationProviderAttrValue)
  let attrs := attrs.set c.collectorNameAttrKey (.STRING c.collectorNameAttrValue)
  attrs

/-! ## Output metrics -/

/-- A `telemetry.Count`, with the fields the transform sets. -/
structure telemetry.Count where
  Name : String
  Attributes : AttrMap
  Value : Float64
deriving DecidableEq, Repr

/-- A `telemetry.Summary`, with the fields the transform sets. -/
structure telemetry.Summary where
  Name : String
  Attributes : AttrMap
  Count : Float64
  Sum : Float64
  Min : Float64
  Max : Float64
deriving DecidableEq, Repr

/-- A `telemetry.Metric` as the transform produces it. -/
inductive telemetry.Metric where
  | Count (m : telemetry.Count)
  | Summary (m : telemetry.Summary)
deriving DecidableEq, Repr

/-! ## Aggregators -/

/-- A retrieval method of an aggregator: at a state of the aggregator it returns a value
and an error (`none` is nil), and the next state. -/
abbrev Retrieval (σ α : Type) := σ → (α × Option GoError) × σ

/-- The interface `aggregator.Sum`. -/
structure aggregator.Sum (σ : Type) where
  Sum : Retrieval σ Number

/-- The interface `aggregator.MinMaxSumCount`. -/
structure aggregator.MinMaxSumCount (σ : Type) where
  Min : Retrieval σ Number
  Max : Retrieval σ Number
  Sum : Retrieval σ Number
  Count : Retrieval σ Int

/-- The dynamic value of an `export.Aggregator`: the retrieval methods its type has.
The nil aggregator has none. -/
structure Aggregator (σ : Type) where
  Min : Option (Retrieval σ Number)
  Max : Option (Retrieval σ Number)
  Sum : Option (Retrieval σ Number)
  Count : Option (Retrieval σ Int)

/-- The type assertion `a.(aggregator.MinMaxSumCount)`: it holds when the aggregator
has all four methods. -/
def Aggregator.asMinMaxSumCount {σ : Type} (a : Aggregator σ) :
    Option (aggregator.MinMaxSumCount σ) :=
  match a.Min, a.Max, a.Sum, a.Count with
  | some mn, some mx, some sm, some ct => some ⟨mn, mx, sm, ct⟩
  | _, _, _, _ => none

/-- The type assertion `a.(aggregator.Sum)`: it holds when the aggregator has `Sum`. -/
def Aggregator.asSum {σ : Type} (a : Aggregator σ) : Option (aggregator.Sum σ) :=
  match a.Sum with
  | some sm => some ⟨sm⟩
  | none => none

/-- A `metricsdk.Record`. -/
structure metricsdk.Record (σ : Type) where
  Descriptor : Descriptor
  Labels : Labels
  Aggregator : Aggregator σ

/-! ## The transform -/

/-- Embeds `sum`: a Sum aggregation becomes a Count metric. -/
def sum {σ : Type} (desc : Descriptor) (attrs : AttrMap) (a : aggregator.Sum σ) (s : σ) :
    (Option telemetry.Metric × Option GoError) × σ :=
  let ((sum, err), s) := a.Sum s
  if err ≠ none then ((none, err), s)
  else
    ((some (.Count ⟨desc.Name, attrs, sum.CoerceToFloat64 desc.NumberKind⟩), none), s)

/-- Embeds `minMaxSumCountValues`; the named results start at their zero values. -/
def minMaxSumCountValues {σ : Type} (a : aggregator.MinMaxSumCount σ) (s : σ) :
    (Number × Number × Number × Int × Option GoError) × σ :=
  let ((min, err), s) := a.Min s
  if err ≠ none then ((min, 0, 0, 0, err), s)
  else
    let ((max, err), s) := a.Max s
    if err ≠ none then ((min, max, 0, 0, err), s)
    else
      let ((sum, err), s) := a.Sum s
      if err ≠ none then ((min, max, sum, 0, err), s)
      else
        let ((count, err), s) := a.Count s
        if err ≠ none then ((min, max, sum, count, err), s)
        else ((min, max, sum, count, err), s)

/-- Embeds `minMaxSumCount`: a MinMaxSumCount aggregation becomes a Summary metric. -/
def minMaxSumCount {σ : Type} (desc : Descriptor) (attrs : AttrMap)
    (a : aggregator.MinMaxSumCount σ) (s : σ) :
    (Option telemetry.Metric × Option GoError) × σ :=
  let ((min, max, sum, count, err), s) := minMaxSumCountValues a s
  if err ≠ none then ((none, err), s)
  else
    ((some (.Summary ⟨desc.Name, attrs, float64OfInt count,
        sum.CoerceToFloat64 desc.NumberKind,
        min.CoerceToFloat64 desc.NumberKind,
        max.CoerceToFloat64 desc.NumberKind⟩), none), s)

/-- Embeds `Record`: the type switch tries `aggregator.MinMaxSumCount` first, then
`aggregator.Sum`, and falls through to `ErrUnimplementedAgg`. -/
def Record {σ : Type} (c : Consts) (service : String) (r : metricsdk.Record σ) (s : σ) :
    (Option telemetry.Metric × Option GoError) × σ :=
  let desc := r.Descriptor
  let attrs := attributes c service desc r.Labels
  match r.Aggregator.asMinMaxSumCount with
  | some a => minMaxSumCount desc attrs a s
  | none =>
    match r.Aggregator.asSum with
    | some a => sum desc attrs a s
    | none => ((none, some ErrUnimplementedAgg), s)

/-! ## Stub aggregators

Test doubles for the aggregators of the SDK, as a test of the transform would write them. -/

/-- An aggregator value whose type has exactly the method `Sum`. -/
def Aggregator.ofSum {σ : Type} (a : aggregator.Sum σ) : Aggregator σ :=
  ⟨none, none, some a.Sum, none⟩

/-- An aggregator value whose type has the four methods of `aggregator.MinMaxSumCount`. -/
def Aggregator.ofMinMaxSumCount {σ : Type} (a : aggregator.MinMaxSumCount σ) :
    Aggregator σ :=
  ⟨some a.Min, some a.Max, some a.Sum, some a.Count⟩

/-- An aggregator value with no retrieval method at all (also the nil aggregator). -/
def Aggregator.unknown {σ : Type} : Aggregator σ := ⟨none, none, none, none⟩

/-- A stateless retrieval that always returns the value `v` and the error `err`. -/
def Retrieval.const {σ α : Type} (v : α) (err : Option GoError) : Retrieval σ α :=
  fun s => ((v, err), s)

/-- A retrieval method an instrumented stub can log. -/
inductive Call where
  | Min
  | Max
  | Sum
  | Count
deriving DecidableEq, Repr

/-- The stub that wraps an aggregator and logs each retrieval call, in call order,
before handing the call to the wrapped aggregator. -/
def logged {σ : Type} (a : aggregator.MinMaxSumCount σ) :
    aggregator.MinMaxSumCount (σ × List Call) where
  Min := fun st => ((a.Min st.1).1, ((a.Min st.1).2, st.2 ++ [Call.Min]))
  Max := fun st => ((a.Max st.1).1, ((a.Max st.1).2, st.2 ++ [Call.Max]))
  Sum := fun st => ((a.Sum st.1).1, ((a.Sum st.1).2, st.2 ++ [Call.Sum]))
  Count := fun st => ((a.Count st.1).1, ((a.Count st.1).2, st.2 ++ [Call.Count]))

/-! ## Reference definitions

Definitions that follow the words of the specification, for comparison with the code. -/

/-- The value of the last entry of `kvs` whose key is `k`; `none` when no entry has
that key. -/
def lastWithKey (kvs : List KeyValue) (k : String) : Option Value :=
  ((kvs.filter (fun kv => kv.Key = k)).getLast?).map (fun kv => kv.Value)

/-- The error of the earliest failing retrieval, the retrievals being listed in call
order; `none` when none fails. -/
def firstError : List (Option GoError) → Option GoError
  | [] => none
  | none :: rest => firstError rest
  | some e :: _ => some e

/-- The number of entries of a map, the Go `len(m)`. -/
def AttrMap.len (m : AttrMap) : Nat := m.length

/-- The five keys `attributes` writes whatever the record holds. -/
def fixedKeys (c : Consts) : List String :=
  ["unit", "description", c.serviceNameAttrKey, c.instrumentationProviderAttrKey,
    c.collectorNameAttrKey]

/-- The keys the labels and the resource attributes of a record bring. -/
def recordKeys (desc : Descriptor) (labels : Labels) : List String :=
  labels.map (fun kv => kv.Key) ++ desc.Resource.Attributes.map (fun kv => kv.Key)

/-! ## Lemmas about attribute maps -/

theorem AttrMap.get_nil (k : String) : AttrMap.get [] k = none := rfl

theorem AttrMap.keys_nil : AttrMap.keys [] = [] := rfl

theorem AttrMap.get_set (m : AttrMap) (k : String) (v : Value) (k1 : String) :
    (m.set k v).get k1 = if k1 = k then some v else m.get k1 := by
  induction m with
  | nil =>
    by_cases h : k1 = k
    · simp [AttrMap.set, AttrMap.get, h]
    · have h1 : ¬ k = k1 := fun e => h e.symm
      simp [AttrMap.set, AttrMap.get, h, h1]
  | cons p m ih =>
    obtain ⟨k2, v2⟩ := p
    by_cases h : k2 = k
    · subst h
      by_cases h1 : k1 = k2
      · subst h1
        simp [AttrMap.set, AttrMap.get]
      · have h2 : ¬ k2 = k1 := fun e => h1 e.symm
        simp [AttrMap.set, AttrMap.get, h1, h2]
    · by_cases h1 : k2 = k1
      · subst h1
        simp [AttrMap.set, AttrMap.get, h]
      · simp [AttrMap.set, AttrMap.get, h, h1, ih]

theorem AttrMap.mem_keys_set (m : AttrMap) (k : String) (v : Value) (k1 : String) :
    k1 ∈ (m.set k v).keys ↔ k1 = k ∨ k1 ∈ m.keys := by
  induction m with
  | nil => simp [AttrMap.set, AttrMap.keys]
  | cons p m ih =>
    obtain ⟨k2, v2⟩ := p
    by_cases h : k2 = k
    · subst h
      simp [AttrMap.set, AttrMap.keys]
    · have ih1 : k1 ∈ List.map Prod.fst (AttrMap.set m k v) ↔
          k1 = k ∨ k1 ∈ List.map Prod.fst m := ih
      simp only [AttrMap.set, AttrMap.keys, h, if_false, List.map_cons, List.mem_cons, ih1]
      tauto

theorem AttrMap.get_isSome_iff (m : AttrMap) (k : String) :
    (m.get k).isSome ↔ k ∈ m.keys := by
  induction m with
  | nil => simp [AttrMap.get, AttrMap.keys]
  | cons p m ih =>
    obtain ⟨k2, v2⟩ := p
    have ih1 : (AttrMap.get m k).isSome = true ↔ k ∈ List.map Prod.fst m := ih
    by_cases h : k2 = k
    · subst h
      simp [AttrMap.get, AttrMap.keys]
    · have h1 : ¬ k = k2 := fun e => h e.symm
      simp only [AttrMap.get, AttrMap.keys, h, if_false, List.map_cons, List.mem_cons, ih1, h1,
        false_or]

theorem lastWithKey_nil (k : String) : lastWithKey [] k = none := rfl

theorem lastWithKey_cons (kv : KeyValue) (kvs : List KeyValue) (k : String) :
    lastWithKey (kv :: kvs) k =
      match lastWithKey kvs k with
      | some v => some v
      | none => if kv.Key = k then some kv.Value else none := by
  unfold lastWithKey
  by_cases h : kv.Key = k
  · simp only [List.filter_cons, h, decide_True, if_true, List.getLast?_cons]
    generalize (List.filter (fun kv => decide (kv.Key = k)) kvs).getLast? = o
    cases o <;> rfl
  · simp only [List.filter_cons, h, decide_False, Bool.false_eq_true, if_false]
    generalize (List.filter (fun kv => decide (kv.Key = k)) kvs).getLast? = o
    cases o <;> rfl

theorem lastWithKey_isSome_iff (kvs : List KeyValue) (k : String) :
    (lastWithKey kvs k).isSome ↔ ∃ kv ∈ kvs, kv.Key = k := by
  induction kvs with
  | nil => simp [lastWithKey_nil]
  | cons kv kvs ih =>
    rw [lastWithKey_cons]
    cases hl : lastWithKey kvs k with
    | some v =>
      rw [hl] at ih
      have h1 : ∃ x ∈ kvs, x.Key = k := ih.mp rfl
      obtain ⟨x, hx, hk⟩ := h1
      simp only [Option.isSome_some, true_iff]
      exact ⟨x, List.mem_cons_of_mem _ hx, hk⟩
    | none =>
      rw [hl] at ih
      have h1 : ¬ ∃ x ∈ kvs, x.Key = k := fun h => by simpa using ih.mpr h
      by_cases h : kv.Key = k
      · simp only [h, if_true, Option.isSome_some, true_iff]
        exact ⟨kv, List.mem_cons_self _ _, h⟩
      · simp only [h, if_false, Option.isSome_none, Bool.false_eq_true, false_iff]
        rintro ⟨x, hx, hk⟩
        rcases List.mem_cons.mp hx with rfl | hx1
        · exact h hk
        · exact h1 ⟨x, hx1, hk⟩

/-- Writing a list of key-values into a map, in order: a read returns the value of the
last entry with that key, and what the map held before when there is none. -/
theorem get_foldl_set (kvs : List KeyValue) (m : AttrMap) (k : String) :
    (kvs.foldl (fun m kv => m.set kv.Key kv.Value.AsInterface) m).get k =
      match lastWithKey kvs k with
      | some v => some v
      | none => m.get k := by
  induction kvs generalizing m with
  | nil => simp [lastWithKey_nil]
  | cons kv kvs ih =>
    rw [List.foldl_cons, ih, lastWithKey_cons]
    cases lastWithKey kvs k with
    | some v => rfl
    | none =>
      simp only [AttrMap.get_set, Value.AsInterface]
      by_cases h : kv.Key = k
      · simp [h]
      · have h1 : ¬ k = kv.Key := fun e => h e.symm
        simp [h, h1]

theorem mem_keys_foldl_set (kvs : List KeyValue) (m : AttrMap) (k : String) :
    k ∈ (kvs.foldl (fun m kv => m.set kv.Key kv.Value.AsInterface) m).keys ↔
      (∃ kv ∈ kvs, kv.Key = k) ∨ k ∈ m.keys := by
  induction kvs generalizing m with
  | nil => simp
  | cons kv kvs ih =>
    rw [List.foldl_cons, ih, AttrMap.mem_keys_set]
    constructor
    · rintro (⟨x, hx, hk⟩ | rfl | h)
      · exact Or.inl ⟨x, List.mem_cons_of_mem _ hx, hk⟩
      · exact Or.inl ⟨kv, List.mem_cons_self _ _, rfl⟩
      · exact Or.inr h
    · rintro (⟨x, hx, hk⟩ | h)
      · rcases List.mem_cons.mp hx with rfl | hx1
        · exact Or.inr (Or.inl hk.symm)
        · exact Or.inl ⟨x, hx1, hk⟩
      · exact Or.inr (Or.inr h)

/-- Reading the map `attributes` builds: the writes in reverse order of construction. -/
theorem attributes_get (c : Consts) (service : String) (desc : Descriptor)
    (labels : Labels) (k : String) :
    (attributes c service desc labels).get k =
      if k = c.collectorNameAttrKey then some (.STRING c.collectorNameAttrValue)
      else if k = c.instrumentationProviderAttrKey then
        some (.STRING c.instrumentationProviderAttrValue)
      else if k = c.serviceNameAttrKey then some (.STRING service)
      else
        match lastWithKey labels k with
        | some v => some v
        | none =>
          match lastWithKey desc.Resource.Attributes k with
          | some v => some v
          | none =>
            if k = "description" then some (.STRING desc.Description)
            else if k = "unit" then some (.STRING desc.Unit)
            else none := by
  simp only [attributes, AttrMap.get_set, get_foldl_set, AttrMap.make, AttrMap.get_nil]

theorem attributes_mem_keys (c : Consts) (service : String) (desc : Descriptor)
    (labels : Labels) (k : String) :
    k ∈ (attributes c service desc labels).keys ↔
      k = "unit" ∨ k = "description" ∨ (∃ kv ∈ desc.Resource.Attributes, kv.Key = k) ∨
        (∃ kv ∈ labels, kv.Key = k) ∨ k = c.serviceNameAttrKey ∨
        k = c.instrumentationProviderAttrKey ∨ k = c.collectorNameAttrKey := by
  simp only [attributes, AttrMap.mem_keys_set, mem_keys_foldl_set, AttrMap.make,
    AttrMap.keys_nil, List.not_mem_nil, or_false]
  generalize (∃ kv ∈ desc.Resource.Attributes, kv.Key = k) = inResource
  generalize (∃ kv ∈ labels, kv.Key = k) = inLabels
  tauto

theorem AttrMap.keys_set_nodup (m : AttrMap) (k : String) (v : Value)
    (h : m.keys.Nodup) : (m.set k v).keys.Nodup := by
  induction m with
  | nil => simp [AttrMap.set, AttrMap.keys]
  | cons p m ih =>
    obtain ⟨k2, v2⟩ := p
    have h0 : (k2 :: AttrMap.keys m).Nodup := h
    rw [List.nodup_cons] at h0
    by_cases hk : k2 = k
    · subst hk
      simpa [AttrMap.set, AttrMap.keys] using h
    · have hmem : k2 ∉ (AttrMap.set m k v).keys := by
        rw [AttrMap.mem_keys_set]
        rintro (e | e)
        · exact hk e
        · exact h0.1 e
      have hnd : (k2 :: (AttrMap.set m k v).keys).Nodup :=
        List.nodup_cons.mpr ⟨hmem, ih h0.2⟩
      simpa [AttrMap.set, AttrMap.keys, hk] using hnd

theorem keys_foldl_set_nodup (kvs : List KeyValue) (m : AttrMap) (h : m.keys.Nodup) :
    (kvs.foldl (fun m kv => m.set kv.Key kv.Value.AsInterface) m).keys.Nodup := by
  induction kvs generalizing m with
  | nil => exact h
  | cons kv kvs ih =>
    rw [List.foldl_cons]
    exact ih _ (AttrMap.keys_set_nodup m _ _ h)

/-- The keys of the map `attributes` builds are pairwise distinct. -/
theorem attributes_keys_nodup (c : Consts) (service : String) (desc : Descriptor)
    (labels : Labels) : (attributes c service desc labels).keys.Nodup := by
  unfold attributes
  apply AttrMap.keys_set_nodup
  apply AttrMap.keys_set_nodup
  apply AttrMap.keys_set_nodup
  apply keys_foldl_set_nodup
  apply keys_foldl_set_nodup
  apply AttrMap.keys_set_nodup
  apply AttrMap.keys_set_nodup
  exact List.nodup_nil

/-- The number of entries of the map `attributes` builds is the number of distinct keys
among those it writes. -/
theorem attributes_len_eq_card (c : Consts) (service : String) (desc : Descriptor)
    (labels : Labels) :
    (attributes c service desc labels).len =
      (fixedKeys c ++ recordKeys desc labels).toFinset.card := by
  have h1 : (attributes c service desc labels).len =
      (attributes c service desc labels).keys.length := by
    simp [AttrMap.len, AttrMap.keys]
  rw [h1, ← List.toFinset_card_of_nodup (attributes_keys_nodup c service desc labels)]
  congr 1
  ext k
  rw [List.mem_toFinset, List.mem_toFinset, attributes_mem_keys]
  simp only [fixedKeys, recordKeys, List.mem_append, List.mem_cons, List.mem_map,
    List.not_mem_nil, or_false]
  generalize (∃ kv ∈ desc.Resource.Attributes, kv.Key = k) = inResource
  generalize (∃ kv ∈ labels, kv.Key = k) = inLabels
  tauto

/-- Away from the service-name key the map does not depend on the service name. -/
theorem attributes_get_frame (c : Consts) (service1 service2 : String) (desc : Descriptor)
    (labels : Labels) (k : String) (hk : k ≠ c.serviceNameAttrKey) :
    (attributes c service1 desc labels).get k = (attributes c service2 desc labels).get k := by
  rw [attributes_get, attributes_get, if_neg hk, if_neg hk]

/-- What `sum` returns, by the error of the retrieval. -/
theorem sum_eq {σ : Type} (desc : Descriptor) (attrs : AttrMap) (a : aggregator.Sum σ)
    (s s1 : σ) (V : Number) (e : Option GoError) (hret : a.Sum s = ((V, e), s1)) :
    sum desc attrs a s =
      if e ≠ none then ((none, e), s1)
      else ((some (.Count ⟨desc.Name, attrs, V.CoerceToFloat64 desc.NumberKind⟩), none), s1) := by
  simp [sum, hret]

/-- What `minMaxSumCount` returns when the four retrievals are run in order. -/
theorem minMaxSumCount_eq {σ : Type} (desc : Descriptor) (attrs : AttrMap)
    (a : aggregator.MinMaxSumCount σ)
    (s0 s1 s2 s3 s4 : σ) (mn mx sm : Number) (ct : Int) (e1 e2 e3 e4 : Option GoError)
    (hmin : a.Min s0 = ((mn, e1), s1)) (hmax : a.Max s1 = ((mx, e2), s2))
    (hsum : a.Sum s2 = ((sm, e3), s3)) (hcount : a.Count s3 = ((ct, e4), s4)) :
    minMaxSumCount desc attrs a s0 =
      if e1 ≠ none then ((none, e1), s1)
      else if e2 ≠ none then ((none, e2), s2)
      else if e3 ≠ none then ((none, e3), s3)
      else if e4 ≠ none then ((none, e4), s4)
      else
        ((some (.Summary ⟨desc.Name, attrs, float64OfInt ct,
            sm.CoerceToFloat64 desc.NumberKind,
            mn.CoerceToFloat64 desc.NumberKind,
            mx.CoerceToFloat64 desc.NumberKind⟩), none), s4) := by
  cases e1 <;> cases e2 <;> cases e3 <;> cases e4 <;>
    simp [minMaxSumCount, minMaxSumCountValues, hmin, hmax, hsum, hcount]

/-! ## Results about `Record`, `sum` and `minMaxSumCount` -/

/-- C1: for every service name and every record whose aggregator is a Sum-variant
aggregator (it has `Sum` and is not a MinMaxSumCount) whose Sum retrieval succeeds with
value `V`, `Record` returns no error and the Count metric whose name is the descriptor's
name, whose value is `V` coerced by the descriptor's numeric kind and whose attributes
are `attributes service descriptor labels`. -/
theorem Record_sum_yields_count {σ : Type} (c : Consts) (service : String)
    (r : metricsdk.Record σ) (a : aggregator.Sum σ) (s s1 : σ) (V : Number)
    (hnot : r.Aggregator.asMinMaxSumCount = none)
    (hsum : r.Aggregator.asSum = some a)
    (hret : a.Sum s = ((V, none), s1)) :
    Record c service r s =
      ((some (.Count ⟨r.Descriptor.Name, attributes c service r.Descriptor r.Labels,
          V.CoerceToFloat64 r.Descriptor.NumberKind⟩), none), s1) := by
  simp [Record, hnot, hsum, sum, hret]

/-- Witness of C1: an int64 Sum aggregator holding 7. -/
theorem Record_sum_yields_count_witness :
    Record ⟨"service.name", "instrumentation.provider", "p", "collector.name", "c"⟩ "svc"
        ⟨⟨"n", "1", "d", .Int64NumberKind, ⟨[]⟩⟩, [],
          Aggregator.ofSum ⟨Retrieval.const 7 none⟩⟩ () =
      ((some (.Count ⟨"n",
          attributes ⟨"service.name", "instrumentation.provider", "p", "collector.name", "c"⟩
            "svc" ⟨"n", "1", "d", .Int64NumberKind, ⟨[]⟩⟩ [],
          Number.CoerceToFloat64 7 .Int64NumberKind⟩), none), ()) :=
  Record_sum_yields_count _ "svc"
    ⟨⟨"n", "1", "d", .Int64NumberKind, ⟨[]⟩⟩, [], Aggregator.ofSum ⟨Retrieval.const 7 none⟩⟩
    ⟨Retrieval.const 7 none⟩ () () 7 rfl rfl rfl

/-- C2: for every service name and every record whose aggregator is a MinMaxSumCount
aggregator whose four retrievals, run in the order min, max, sum, count, all succeed with
the values `mn`, `mx`, `sm`, `ct`, `Record` returns no error and the Summary metric whose
name is the descriptor's name, whose count is `float64 ct` whatever the numeric kind,
whose sum, min and max are `sm`, `mn`, `mx` coerced by the descriptor's numeric kind, and
whose attributes are `attributes service descriptor labels`.  In the scenario min = 1.0,
max = 9.0, sum = 20.0, count = 5 (float64 kind) the metric is
Summary(Count 5.0, Sum 20.0, Min 1.0, Max 9.0), the floats being given by their bits. -/
theorem Record_minMaxSumCount_yields_summary :
    (∀ (σ : Type) (c : Consts) (service : String) (r : metricsdk.Record σ)
        (a : aggregator.MinMaxSumCount σ) (s0 s1 s2 s3 s4 : σ) (mn mx sm : Number) (ct : Int),
        r.Aggregator.asMinMaxSumCount = some a →
        a.Min s0 = ((mn, none), s1) → a.Max s1 = ((mx, none), s2) →
        a.Sum s2 = ((sm, none), s3) → a.Count s3 = ((ct, none), s4) →
        Record c service r s0 =
          ((some (.Summary ⟨r.Descriptor.Name, attributes c service r.Descriptor r.Labels,
              float64OfInt ct,
              sm.CoerceToFloat64 r.Descriptor.NumberKind,
              mn.CoerceToFloat64 r.Descriptor.NumberKind,
              mx.CoerceToFloat64 r.Descriptor.NumberKind⟩), none), s4)) ∧
    (∀ (c : Consts) (service name unit description : String) (res : Resource)
        (labels : Labels),
        Record c service
          ⟨⟨name, unit, description, .Float64NumberKind, res⟩, labels,
            Aggregator.ofMinMaxSumCount
              ⟨Retrieval.const 0x3FF0000000000000 none, Retrieval.const 0x4022000000000000 none,
                Retrieval.const 0x4034000000000000 none, Retrieval.const 5 none⟩⟩ () =
          ((some (.Summary ⟨name,
              attributes c service ⟨name, unit, description, .Float64NumberKind, res⟩ labels,
              0x4014000000000000, 0x4034000000000000, 0x3FF0000000000000,
              0x4022000000000000⟩), none), ())) := by
  refine ⟨?_, ?_⟩
  · intro σ c service r a s0 s1 s2 s3 s4 mn mx sm ct hagg hmin hmax hsum hcount
    simp only [Record, hagg]
    rw [minMaxSumCount_eq r.Descriptor _ a s0 s1 s2 s3 s4 mn mx sm ct none none none none
      hmin hmax hsum hcount]
    simp
  · intro c service name unit description res labels
    have h5 : float64OfInt 5 = 0x4014000000000000 := by decide
    have h20 : Number.CoerceToFloat64 0x4034000000000000 .Float64NumberKind =
        0x4034000000000000 := by decide
    have h1 : Number.CoerceToFloat64 0x3FF0000000000000 .Float64NumberKind =
        0x3FF0000000000000 := by decide
    have h9 : Number.CoerceToFloat64 0x4022000000000000 .Float64NumberKind =
        0x4022000000000000 := by decide
    simp only [Record, Aggregator.ofMinMaxSumCount, Aggregator.asMinMaxSumCount]
    rw [minMaxSumCount_eq _ _ _ () () () () () 0x3FF0000000000000 0x4022000000000000
      0x4034000000000000 5 none none none none rfl rfl rfl rfl]
    simp [h5, h20, h1, h9]

/-- Witness of C2: the same scenario for an int64 instrument, min = 1, max = 9, sum = 20,
count = 5, with a label and a resource attribute. -/
theorem Record_minMaxSumCount_yields_summary_witness :
    Record ⟨"service.name", "instrumentation.provider", "p", "collector.name", "c"⟩ "svc"
        ⟨⟨"latency", "ms", "d", .Int64NumberKind, ⟨[⟨"host", .STRING "h1"⟩]⟩⟩,
          [⟨"A", .INT64 1⟩],
          Aggregator.ofMinMaxSumCount
            ⟨Retrieval.const 1 none, Retrieval.const 9 none, Retrieval.const 20 none,
              Retrieval.const 5 none⟩⟩ () =
      ((some (.Summary ⟨"latency",
          attributes ⟨"service.name", "instrumentation.provider", "p", "collector.name", "c"⟩
            "svc" ⟨"latency", "ms", "d", .Int64NumberKind, ⟨[⟨"host", .STRING "h1"⟩]⟩⟩
            [⟨"A", .INT64 1⟩],
          float64OfInt 5, Number.CoerceToFloat64 20 .Int64NumberKind,
          Number.CoerceToFloat64 1 .Int64NumberKind,
          Number.CoerceToFloat64 9 .Int64NumberKind⟩), none), ()) :=
  Record_minMaxSumCount_yields_summary.1 Unit _ "svc"
    ⟨⟨"latency", "ms", "d", .Int64NumberKind, ⟨[⟨"host", .STRING "h1"⟩]⟩⟩, [⟨"A", .INT64 1⟩],
      Aggregator.ofMinMaxSumCount
        ⟨Retrieval.const 1 none, Retrieval.const 9 none, Retrieval.const 20 none,
          Retrieval.const 5 none⟩⟩
    ⟨Retrieval.const 1 none, Retrieval.const 9 none, Retrieval.const 20 none,
      Retrieval.const 5 none⟩ () () () () () 1 9 20 5 rfl rfl rfl rfl rfl

/-- C3: for every service name and every record whose aggregator is neither a Sum nor a
MinMaxSumCount aggregator, `Record` returns the nil metric together with exactly
`ErrUnimplementedAgg`, the error with message "unimplemented aggregator", whatever the
descriptor and the labels are; no retrieval is run. -/
theorem Record_unknown_aggregator {σ : Type} (c : Consts) (service : String)
    (r : metricsdk.Record σ) (s : σ)
    (hnotSum : r.Aggregator.asSum = none)
    (hnotMinMaxSumCount : r.Aggregator.asMinMaxSumCount = none) :
    Record c service r s = ((none, some ErrUnimplementedAgg), s) ∧
      ErrUnimplementedAgg.msg = "unimplemented aggregator" := by
  refine ⟨?_, rfl⟩
  simp only [Record, hnotSum, hnotMinMaxSumCount]

/-- Witness of C3: a stub that has `Min`, `Max` and `Count` retrievals but no `Sum`. -/
theorem Record_unknown_aggregator_witness :
    Record ⟨"service.name", "instrumentation.provider", "p", "collector.name", "c"⟩ "svc"
        ⟨⟨"n", "1", "d", .Float64NumberKind, ⟨[⟨"host", .STRING "h1"⟩]⟩⟩, [⟨"A", .BOOL true⟩],
          (⟨some (Retrieval.const 1 none), some (Retrieval.const 2 none), none,
            some (Retrieval.const 3 none)⟩ : Aggregator Unit)⟩ () =
        ((none, some ErrUnimplementedAgg), ()) ∧
      ErrUnimplementedAgg.msg = "unimplemented aggregator" :=
  Record_unknown_aggregator _ "svc"
    ⟨⟨"n", "1", "d", .Float64NumberKind, ⟨[⟨"host", .STRING "h1"⟩]⟩⟩, [⟨"A", .BOOL true⟩],
      ⟨some (Retrieval.const 1 none), some (Retrieval.const 2 none), none,
        some (Retrieval.const 3 none)⟩⟩ () rfl rfl

/-! ## Results about `attributes` -/

/-- C4: for every service name, descriptor and label set, the map `attributes` returns
maps the service-name key to the given service name, the instrumentation-provider key to
the provider constant and the collector-name key to the collector constant, whatever the
resource attributes and the labels hold under those keys; the three keys, declared
outside `metric.go`, are pairwise distinct. -/
theorem attributes_provenance_wins (c : Consts) (service : String) (desc : Descriptor)
    (labels : Labels)
    (hsp : c.serviceNameAttrKey ≠ c.instrumentationProviderAttrKey)
    (hsc : c.serviceNameAttrKey ≠ c.collectorNameAttrKey)
    (hpc : c.instrumentationProviderAttrKey ≠ c.collectorNameAttrKey) :
    (attributes c service desc labels).get c.serviceNameAttrKey = some (.STRING service) ∧
      (attributes c service desc labels).get c.instrumentationProviderAttrKey =
        some (.STRING c.instrumentationProviderAttrValue) ∧
      (attributes c service desc labels).get c.collectorNameAttrKey =
        some (.STRING c.collectorNameAttrValue) := by
  refine ⟨?_, ?_, ?_⟩
  · rw [attributes_get, if_neg hsc, if_neg hsp, if_pos rfl]
  · rw [attributes_get, if_neg hpc, if_pos rfl]
  · rw [attributes_get, if_pos rfl]

/-- Witness of C4: the resource claims another service name and collector name, the labels
another service name and provider. -/
theorem attributes_provenance_wins_witness :
    (attributes ⟨"service.name", "instrumentation.provider", "p", "collector.name", "c"⟩ "svc"
        ⟨"n", "1", "d", .Int64NumberKind,
          ⟨[⟨"service.name", .STRING "other"⟩, ⟨"collector.name", .INT64 3⟩]⟩⟩
        [⟨"service.name", .STRING "mine"⟩, ⟨"instrumentation.provider", .BOOL false⟩]).get
          "service.name" = some (.STRING "svc") ∧
      (attributes ⟨"service.name", "instrumentation.provider", "p", "collector.name", "c"⟩ "svc"
        ⟨"n", "1", "d", .Int64NumberKind,
          ⟨[⟨"service.name", .STRING "other"⟩, ⟨"collector.name", .INT64 3⟩]⟩⟩
        [⟨"service.name", .STRING "mine"⟩, ⟨"instrumentation.provider", .BOOL false⟩]).get
          "instrumentation.provider" = some (.STRING "p") ∧
      (attributes ⟨"service.name", "instrumentation.provider", "p", "collector.name", "c"⟩ "svc"
        ⟨"n", "1", "d", .Int64NumberKind,
          ⟨[⟨"service.name", .STRING "other"⟩, ⟨"collector.name", .INT64 3⟩]⟩⟩
        [⟨"service.name", .STRING "mine"⟩, ⟨"instrumentation.provider", .BOOL false⟩]).get
          "collector.name" = some (.STRING "c") :=
  attributes_provenance_wins
    ⟨"service.name", "instrumentation.provider", "p", "collector.name", "c"⟩ "svc"
    ⟨"n", "1", "d", .Int64NumberKind,
      ⟨[⟨"service.name", .STRING "other"⟩, ⟨"collector.name", .INT64 3⟩]⟩⟩
    [⟨"service.name", .STRING "mine"⟩, ⟨"instrumentation.provider", .BOOL false⟩]
    (by decide) (by decide) (by decide)

/-! ## Results about failures -/

/-- C5: for every MinMaxSumCount aggregator whose Min retrieval fails, wrapped in the stub
that logs each retrieval call, `minMaxSumCountValues` and `Record` add exactly the Min
call to the log: the Max, Sum and Count retrievals are not invoked, and the aggregator
is left in the state the Min retrieval left it in. -/
theorem minMaxSumCountValues_min_fails_stops {σ : Type} (c : Consts) (service : String)
    (desc : Descriptor) (labels : Labels) (a : aggregator.MinMaxSumCount σ) (s : σ)
    (log : List Call) (hfail : (a.Min s).1.2 ≠ none) :
    (minMaxSumCountValues (logged a) (s, log)).2 = ((a.Min s).2, log ++ [Call.Min]) ∧
      (Record c service ⟨desc, labels, Aggregator.ofMinMaxSumCount (logged a)⟩ (s, log)).2 =
        ((a.Min s).2, log ++ [Call.Min]) := by
  have h1 : (minMaxSumCountValues (logged a) (s, log)).2 =
      ((a.Min s).2, log ++ [Call.Min]) := by
    simp [minMaxSumCountValues, logged, hfail]
  refine ⟨h1, ?_⟩
  have h2 : (minMaxSumCountValues (logged a) (s, log)).1.2.2.2.2 ≠ none := by
    simp [minMaxSumCountValues, logged, hfail]
  simp only [Record, Aggregator.ofMinMaxSumCount, Aggregator.asMinMaxSumCount,
    minMaxSumCount]
  rw [if_pos h2]
  exact h1

/-- Witness of C5: Min fails, the later retrievals would succeed, the log starts empty. -/
theorem minMaxSumCountValues_min_fails_stops_witness :
    (minMaxSumCountValues
        (logged (⟨Retrieval.const 0 (some ⟨"no data"⟩), Retrieval.const 9 none,
          Retrieval.const 20 none, Retrieval.const 5 none⟩ : aggregator.MinMaxSumCount Unit))
        ((), [])).2 = ((), [Call.Min]) ∧
      (Record ⟨"service.name", "instrumentation.provider", "p", "collector.name", "c"⟩ "svc"
        ⟨⟨"n", "1", "d", .Int64NumberKind, ⟨[]⟩⟩, [],
          Aggregator.ofMinMaxSumCount
            (logged (⟨Retrieval.const 0 (some ⟨"no data"⟩), Retrieval.const 9 none,
              Retrieval.const 20 none, Retrieval.const 5 none⟩ :
                aggregator.MinMaxSumCount Unit))⟩
        ((), [])).2 = ((), [Call.Min]) :=
  minMaxSumCountValues_min_fails_stops
    ⟨"service.name", "instrumentation.provider", "p", "collector.name", "c"⟩ "svc"
    ⟨"n", "1", "d", .Int64NumberKind, ⟨[]⟩⟩ []
    ⟨Retrieval.const 0 (some ⟨"no data"⟩), Retrieval.const 9 none, Retrieval.const 20 none,
      Retrieval.const 5 none⟩ () [] (by decide)

/-- C6: for every record with a MinMaxSumCount aggregator, the retrievals Min, Max, Sum,
Count being run in that order with errors `e1`, `e2`, `e3`, `e4`, the error `Record`
returns is exactly the error of the earliest failing retrieval, unchanged, whatever the
later ones are; so `Record` fails if and only if one of the four fails, and then it
returns the nil metric. -/
theorem Record_minMaxSumCount_first_error {σ : Type} (c : Consts) (service : String)
    (r : metricsdk.Record σ) (a : aggregator.MinMaxSumCount σ)
    (s0 s1 s2 s3 s4 : σ) (mn mx sm : Number) (ct : Int) (e1 e2 e3 e4 : Option GoError)
    (hagg : r.Aggregator.asMinMaxSumCount = some a)
    (hmin : a.Min s0 = ((mn, e1), s1)) (hmax : a.Max s1 = ((mx, e2), s2))
    (hsum : a.Sum s2 = ((sm, e3), s3)) (hcount : a.Count s3 = ((ct, e4), s4)) :
    (Record c service r s0).1.2 = firstError [e1, e2, e3, e4] ∧
      ((Record c service r s0).1.2 ≠ none ↔
        (e1 ≠ none ∨ e2 ≠ none ∨ e3 ≠ none ∨ e4 ≠ none)) ∧
      ((Record c service r s0).1.1 = none ↔
        (e1 ≠ none ∨ e2 ≠ none ∨ e3 ≠ none ∨ e4 ≠ none)) := by
  simp only [Record, hagg]
  rw [minMaxSumCount_eq r.Descriptor _ a s0 s1 s2 s3 s4 mn mx sm ct e1 e2 e3 e4
    hmin hmax hsum hcount]
  cases e1 <;> cases e2 <;> cases e3 <;> cases e4 <;> simp [firstError]

/-- Witness of C6: Min succeeds, Max fails, Sum would fail with another error. -/
theorem Record_minMaxSumCount_first_error_witness :
    (Record ⟨"service.name", "instrumentation.provider", "p", "collector.name", "c"⟩ "svc"
        ⟨⟨"n", "1", "d", .Int64NumberKind, ⟨[]⟩⟩, [],
          Aggregator.ofMinMaxSumCount
            ⟨Retrieval.const 1 none, Retrieval.const 0 (some ⟨"max failed"⟩),
              Retrieval.const 0 (some ⟨"sum failed"⟩), Retrieval.const 5 none⟩⟩ ()).1.2 =
        some ⟨"max failed"⟩ ∧
      (Record ⟨"service.name", "instrumentation.provider", "p", "collector.name", "c"⟩ "svc"
        ⟨⟨"n", "1", "d", .Int64NumberKind, ⟨[]⟩⟩, [],
          Aggregator.ofMinMaxSumCount
            ⟨Retrieval.const 1 none, Retrieval.const 0 (some ⟨"max failed"⟩),
              Retrieval.const 0 (some ⟨"sum failed"⟩), Retrieval.const 5 none⟩⟩ ()).1.1 =
        none :=
  have h := Record_minMaxSumCount_first_error
    ⟨"service.name", "instrumentation.provider", "p", "collector.name", "c"⟩ "svc"
    ⟨⟨"n", "1", "d", .Int64NumberKind, ⟨[]⟩⟩, [],
      Aggregator.ofMinMaxSumCount
        ⟨Retrieval.const 1 none, Retrieval.const 0 (some ⟨"max failed"⟩),
          Retrieval.const 0 (some ⟨"sum failed"⟩), Retrieval.const 5 none⟩⟩
    ⟨Retrieval.const 1 none, Retrieval.const 0 (some ⟨"max failed"⟩),
      Retrieval.const 0 (some ⟨"sum failed"⟩), Retrieval.const 5 none⟩
    () () () () () 1 0 0 5 none (some ⟨"max failed"⟩) (some ⟨"sum failed"⟩) none
    rfl rfl rfl rfl rfl
  ⟨h.1, h.2.2.mpr (Or.inr (Or.inl (by decide)))⟩

/-- C7: for every record with a Sum-variant aggregator, the error `Record` returns is
exactly the error the Sum retrieval returned, so `Record` fails if and only if that
retrieval fails; when it fails the metric returned is nil and when it does not a metric
is returned. -/
theorem Record_sum_error {σ : Type} (c : Consts) (service : String)
    (r : metricsdk.Record σ) (a : aggregator.Sum σ) (s s1 : σ) (V : Number)
    (e : Option GoError)
    (hnot : r.Aggregator.asMinMaxSumCount = none)
    (hsum : r.Aggregator.asSum = some a)
    (hret : a.Sum s = ((V, e), s1)) :
    (Record c service r s).1.2 = e ∧
      ((Record c service r s).1.2 ≠ none ↔ e ≠ none) ∧
      (e ≠ none → (Record c service r s).1 = (none, e)) ∧
      (e = none → (Record c service r s).1.1 ≠ none) := by
  simp only [Record, hnot, hsum]
  rw [sum_eq r.Descriptor _ a s s1 V e hret]
  cases e <;> simp

/-- Witness of C7: the Sum retrieval fails with "no data". -/
theorem Record_sum_error_witness :
    (Record ⟨"service.name", "instrumentation.provider", "p", "collector.name", "c"⟩ "svc"
        ⟨⟨"n", "1", "d", .Int64NumberKind, ⟨[]⟩⟩, [⟨"A", .STRING "1"⟩],
          Aggregator.ofSum ⟨Retrieval.const 0 (some ⟨"no data"⟩)⟩⟩ ()).1 =
      (none, some ⟨"no data"⟩) :=
  (Record_sum_error
    ⟨"service.name", "instrumentation.provider", "p", "collector.name", "c"⟩ "svc"
    ⟨⟨"n", "1", "d", .Int64NumberKind, ⟨[]⟩⟩, [⟨"A", .STRING "1"⟩],
      Aggregator.ofSum ⟨Retrieval.const 0 (some ⟨"no data"⟩)⟩⟩
    ⟨Retrieval.const 0 (some ⟨"no data"⟩)⟩ () () 0 (some ⟨"no data"⟩) rfl rfl rfl).2.2.1
    (by decide)

/-- C8: for every service name and every record, `Record` returns exactly one of two
outcomes: a metric (a Count or a Summary) with the nil error, or the nil metric with an
error; it never returns a metric together with an error, nor nil with nil. -/
theorem Record_metric_xor_error {σ : Type} (c : Consts) (service : String)
    (r : metricsdk.Record σ) (s : σ) :
    (∃ m, (Record c service r s).1 = (some m, none) ∧
        ((∃ x, m = .Count x) ∨ (∃ x, m = .Summary x))) ∨
      (∃ e, (Record c service r s).1 = (none, some e)) := by
  simp only [Record]
  cases r.Aggregator.asMinMaxSumCount with
  | some a =>
    simp only []
    rw [minMaxSumCount_eq r.Descriptor _ a s (a.Min s).2 (a.Max (a.Min s).2).2
      (a.Sum (a.Max (a.Min s).2).2).2 (a.Count (a.Sum (a.Max (a.Min s).2).2).2).2
      (a.Min s).1.1 (a.Max (a.Min s).2).1.1 (a.Sum (a.Max (a.Min s).2).2).1.1
      (a.Count (a.Sum (a.Max (a.Min s).2).2).2).1.1
      (a.Min s).1.2 (a.Max (a.Min s).2).1.2 (a.Sum (a.Max (a.Min s).2).2).1.2
      (a.Count (a.Sum (a.Max (a.Min s).2).2).2).1.2 rfl rfl rfl rfl]
    cases (a.Min s).1.2 <;> cases (a.Max (a.Min s).2).1.2 <;>
      cases (a.Sum (a.Max (a.Min s).2).2).1.2 <;>
      cases (a.Count (a.Sum (a.Max (a.Min s).2).2).2).1.2 <;> simp
  | none =>
    simp only []
    cases r.Aggregator.asSum with
    | some a =>
      simp only []
      rw [sum_eq r.Descriptor _ a s (a.Sum s).2 (a.Sum s).1.1 (a.Sum s).1.2 rfl]
      cases (a.Sum s).1.2 <;> simp
    | none => simp

/-! ## The content of the attribute map -/

/-- C9: for every service name, descriptor, label set and key `k`, the value of
`attributes service descriptor labels` at `k` is decided by last write wins over the
construction order: the provenance value if `k` is a provenance key (collector name,
then instrumentation provider, then service name); otherwise the value of the last label
with key `k` if a label has that key; otherwise the value of the last resource attribute
with key `k` if one has that key; otherwise the descriptor's description if `k` is
"description" and its unit if `k` is "unit"; otherwise nothing.  Label and resource values
are stored as received.  In particular a label whose key is not a provenance key beats
the descriptor's unit and description and every resource attribute with its key. -/
theorem attributes_last_write_wins (c : Consts) (service : String) (desc : Descriptor)
    (labels : Labels) (k : String) :
    ((attributes c service desc labels).get k =
      if k = c.collectorNameAttrKey then some (.STRING c.collectorNameAttrValue)
      else if k = c.instrumentationProviderAttrKey then
        some (.STRING c.instrumentationProviderAttrValue)
      else if k = c.serviceNameAttrKey then some (.STRING service)
      else
        match lastWithKey labels k with
        | some v => some v
        | none =>
          match lastWithKey desc.Resource.Attributes k with
          | some v => some v
          | none =>
            if k = "description" then some (.STRING desc.Description)
            else if k = "unit" then some (.STRING desc.Unit)
            else none) ∧
      (∀ v, k ≠ c.collectorNameAttrKey → k ≠ c.instrumentationProviderAttrKey →
        k ≠ c.serviceNameAttrKey → lastWithKey labels k = some v →
        (attributes c service desc labels).get k = some v) := by
  refine ⟨attributes_get c service desc labels k, ?_⟩
  intro v h1 h2 h3 hv
  rw [attributes_get, if_neg h1, if_neg h2, if_neg h3, hv]

/-- Witness of C9: the labels hold "unit" twice and "host" once, the resource holds
"host"; the last label keyed "unit" replaces the descriptor's unit. -/
theorem attributes_last_write_wins_witness :
    (attributes ⟨"service.name", "instrumentation.provider", "p", "collector.name", "c"⟩ "svc"
        ⟨"n", "ms", "d", .Int64NumberKind, ⟨[⟨"host", .STRING "h1"⟩]⟩⟩
        [⟨"unit", .STRING "s"⟩, ⟨"host", .INT64 7⟩, ⟨"unit", .FLOAT64 0⟩]).get "unit" =
      some (.FLOAT64 0) :=
  (attributes_last_write_wins
    ⟨"service.name", "instrumentation.provider", "p", "collector.name", "c"⟩ "svc"
    ⟨"n", "ms", "d", .Int64NumberKind, ⟨[⟨"host", .STRING "h1"⟩]⟩⟩
    [⟨"unit", .STRING "s"⟩, ⟨"host", .INT64 7⟩, ⟨"unit", .FLOAT64 0⟩] "unit").2
    (.FLOAT64 0) (by decide) (by decide) (by decide) (by decide)

/-- C10: for every service name, descriptor and label set, the keys of
`attributes service descriptor labels` are exactly "unit", "description", the keys of the
resource attributes, the keys of the labels and the three provenance keys: each of
these is present and no other key is.  In the scenario name "requests.count", unit "1",
empty description, int64 kind, no resource attribute, labels A = "1", service "svc1",
Sum value 42, with the provenance keys "service.name", "instrumentation.provider" and
"collector.name", `Record` yields the Count named "requests.count" of value 42.0 (bits
0x4045000000000000) whose map has exactly the six entries unit, description, A,
service.name, instrumentation.provider and collector.name. -/
theorem attributes_keys_exact :
    (∀ (c : Consts) (service : String) (desc : Descriptor) (labels : Labels) (k : String),
      (k ∈ (attributes c service desc labels).keys ↔
        k = "unit" ∨ k = "description" ∨ (∃ kv ∈ desc.Resource.Attributes, kv.Key = k) ∨
          (∃ kv ∈ labels, kv.Key = k) ∨ k = c.serviceNameAttrKey ∨
          k = c.instrumentationProviderAttrKey ∨ k = c.collectorNameAttrKey) ∧
      ((attributes c service desc labels).get k ≠ none ↔
        k ∈ (attributes c service desc labels).keys)) ∧
    (∀ (providerValue collectorValue : String),
      Record
        ⟨"service.name", "instrumentation.provider", providerValue, "collector.name",
          collectorValue⟩ "svc1"
        ⟨⟨"requests.count", "1", "", .Int64NumberKind, ⟨[]⟩⟩, [⟨"A", .STRING "1"⟩],
          Aggregator.ofSum ⟨Retrieval.const 42 none⟩⟩ () =
        ((some (.Count ⟨"requests.count",
            [("unit", .STRING "1"), ("description", .STRING ""), ("A", .STRING "1"),
              ("service.name", .STRING "svc1"),
              ("instrumentation.provider", .STRING providerValue),
              ("collector.name", .STRING collectorValue)],
            0x4045000000000000⟩), none), ())) := by
  refine ⟨?_, ?_⟩
  · intro c service desc labels k
    refine ⟨attributes_mem_keys c service desc labels k, ?_⟩
    rw [← AttrMap.get_isSome_iff, Option.isSome_iff_ne_none]
  · intro providerValue collectorValue
    have h42 : Number.CoerceToFloat64 42 .Int64NumberKind = 0x4045000000000000 := by decide
    simp only [Record, Aggregator.ofSum, Aggregator.asMinMaxSumCount, Aggregator.asSum]
    rw [sum_eq _ _ _ () () 42 none rfl]
    simp [h42, attributes, AttrMap.set, AttrMap.make, Value.AsInterface]

/-! ## Dispatch order, size and frame -/

/-- C12: `Record` tests the MinMaxSumCount case before the Sum case.  For every record
whose aggregator has the Sum retrieval and the Min, Max and Count retrievals, both type
assertions hold, and `Record` takes the MinMaxSumCount branch: a metric it returns is a
Summary, never a Count, and a failing Min makes it fail with the error of Min, whatever
the Sum retrieval alone would return. -/
theorem Record_minMaxSumCount_before_sum {σ : Type} (c : Consts) (service : String)
    (r : metricsdk.Record σ) (s : σ) (mn mx sm : Retrieval σ Number) (ct : Retrieval σ Int)
    (hmin : r.Aggregator.Min = some mn) (hmax : r.Aggregator.Max = some mx)
    (hsum : r.Aggregator.Sum = some sm) (hcount : r.Aggregator.Count = some ct) :
    r.Aggregator.asSum = some ⟨sm⟩ ∧
      r.Aggregator.asMinMaxSumCount = some ⟨mn, mx, sm, ct⟩ ∧
      Record c service r s =
        minMaxSumCount r.Descriptor (attributes c service r.Descriptor r.Labels)
          ⟨mn, mx, sm, ct⟩ s ∧
      (∀ m, (Record c service r s).1.1 = some m → ∃ x, m = .Summary x) ∧
      ((mn s).1.2 ≠ none → (Record c service r s).1 = (none, (mn s).1.2)) := by
  have hS : r.Aggregator.asSum = some ⟨sm⟩ := by simp [Aggregator.asSum, hsum]
  have hM : r.Aggregator.asMinMaxSumCount = some ⟨mn, mx, sm, ct⟩ := by
    simp [Aggregator.asMinMaxSumCount, hmin, hmax, hsum, hcount]
  have hR : Record c service r s =
      minMaxSumCount r.Descriptor (attributes c service r.Descriptor r.Labels)
        ⟨mn, mx, sm, ct⟩ s := by
    simp only [Record, hM]
  refine ⟨hS, hM, hR, ?_, ?_⟩
  · intro m
    rw [hR, minMaxSumCount_eq r.Descriptor _ ⟨mn, mx, sm, ct⟩ s (mn s).2 (mx (mn s).2).2
      (sm (mx (mn s).2).2).2 (ct (sm (mx (mn s).2).2).2).2
      (mn s).1.1 (mx (mn s).2).1.1 (sm (mx (mn s).2).2).1.1 (ct (sm (mx (mn s).2).2).2).1.1
      (mn s).1.2 (mx (mn s).2).1.2 (sm (mx (mn s).2).2).1.2 (ct (sm (mx (mn s).2).2).2).1.2
      rfl rfl rfl rfl]
    cases (mn s).1.2 <;> cases (mx (mn s).2).1.2 <;> cases (sm (mx (mn s).2).2).1.2 <;>
      cases (ct (sm (mx (mn s).2).2).2).1.2 <;> simp
    intro h
    exact ⟨_, h.symm⟩
  · intro hfail
    rw [hR, minMaxSumCount_eq r.Descriptor _ ⟨mn, mx, sm, ct⟩ s (mn s).2 (mx (mn s).2).2
      (sm (mx (mn s).2).2).2 (ct (sm (mx (mn s).2).2).2).2
      (mn s).1.1 (mx (mn s).2).1.1 (sm (mx (mn s).2).2).1.1 (ct (sm (mx (mn s).2).2).2).1.1
      (mn s).1.2 (mx (mn s).2).1.2 (sm (mx (mn s).2).2).1.2 (ct (sm (mx (mn s).2).2).2).1.2
      rfl rfl rfl rfl, if_pos hfail]

/-- Witness of C12: Min fails with "no data" while Sum alone succeeds with 20, so `sum`
on the same aggregator would return a Count; `Record` fails with the error of Min. -/
theorem Record_minMaxSumCount_before_sum_witness :
    (Record ⟨"service.name", "instrumentation.provider", "p", "collector.name", "c"⟩ "svc"
        ⟨⟨"n", "1", "d", .Int64NumberKind, ⟨[]⟩⟩, [],
          (⟨some (Retrieval.const 0 (some ⟨"no data"⟩)), some (Retrieval.const 9 none),
            some (Retrieval.const 20 none), some (Retrieval.const 5 none)⟩ :
              Aggregator Unit)⟩ ()).1 = (none, some ⟨"no data"⟩) ∧
      (sum ⟨"n", "1", "d", .Int64NumberKind, ⟨[]⟩⟩ []
        (⟨Retrieval.const 20 none⟩ : aggregator.Sum Unit) ()).1 =
        (some (.Count ⟨"n", [], Number.CoerceToFloat64 20 .Int64NumberKind⟩), none) :=
  ⟨(Record_minMaxSumCount_before_sum
      ⟨"service.name", "instrumentation.provider", "p", "collector.name", "c"⟩ "svc"
      ⟨⟨"n", "1", "d", .Int64NumberKind, ⟨[]⟩⟩, [],
        ⟨some (Retrieval.const 0 (some ⟨"no data"⟩)), some (Retrieval.const 9 none),
          some (Retrieval.const 20 none), some (Retrieval.const 5 none)⟩⟩ ()
      (Retrieval.const 0 (some ⟨"no data"⟩)) (Retrieval.const 9 none)
      (Retrieval.const 20 none) (Retrieval.const 5 none) rfl rfl rfl rfl).2.2.2.2
      (by decide), rfl⟩

/-- C13: for every service name, descriptor with `m` resource attributes and label set
with `n` labels, when "unit", "description" and the three provenance keys are pairwise
distinct, the map `attributes` builds has pairwise distinct keys and its number of
entries is at least 5 and at most `5 + n + m`, the capacity passed to `make`; the upper
bound is reached exactly when the label keys and the resource attribute keys are
pairwise distinct and none of them is one of the five fixed keys. -/
theorem attributes_size_bounds (c : Consts) (service : String) (desc : Descriptor)
    (labels : Labels) (hfixed : (fixedKeys c).Nodup) :
    (attributes c service desc labels).keys.Nodup ∧
      5 ≤ (attributes c service desc labels).len ∧
      (attributes c service desc labels).len ≤
        5 + labels.length + desc.Resource.Attributes.length ∧
      ((attributes c service desc labels).len =
          5 + labels.length + desc.Resource.Attributes.length ↔
        (recordKeys desc labels).Nodup ∧
          ∀ k ∈ recordKeys desc labels, k ∉ fixedKeys c) := by
  have hlen : (fixedKeys c ++ recordKeys desc labels).length =
      5 + labels.length + desc.Resource.Attributes.length := by
    simp [fixedKeys, recordKeys]
    omega
  refine ⟨attributes_keys_nodup c service desc labels, ?_, ?_, ?_⟩
  · rw [attributes_len_eq_card]
    have h5 : (fixedKeys c).toFinset.card = 5 := by
      rw [List.toFinset_card_of_nodup hfixed]
      rfl
    rw [← h5]
    apply Finset.card_le_card
    intro k hk
    rw [List.mem_toFinset] at hk ⊢
    exact List.mem_append_left _ hk
  · rw [attributes_len_eq_card, ← hlen]
    exact List.toFinset_card_le _
  · rw [attributes_len_eq_card, ← hlen]
    have hiff : (fixedKeys c ++ recordKeys desc labels).toFinset.card =
        (fixedKeys c ++ recordKeys desc labels).length ↔
        (fixedKeys c ++ recordKeys desc labels).Nodup :=
      Multiset.toFinset_card_eq_card_iff_nodup
    rw [hiff, List.nodup_append]
    constructor
    · rintro ⟨_, hr, hdisj⟩
      exact ⟨hr, fun k hk hf => hdisj hf hk⟩
    · rintro ⟨hr, hno⟩
      exact ⟨hfixed, hr, fun k hf hk => hno k hk hf⟩

/-- Witness of C13: two labels and one resource attribute with fresh, distinct keys; the
map has 5 + 2 + 1 = 8 entries. -/
theorem attributes_size_bounds_witness :
    (attributes ⟨"service.name", "instrumentation.provider", "p", "collector.name", "c"⟩ "svc"
        ⟨"n", "1", "d", .Int64NumberKind, ⟨[⟨"host", .STRING "h1"⟩]⟩⟩
        [⟨"A", .STRING "1"⟩, ⟨"B", .INT64 2⟩]).len = 5 + 2 + 1 :=
  (attributes_size_bounds
    ⟨"service.name", "instrumentation.provider", "p", "collector.name", "c"⟩ "svc"
    ⟨"n", "1", "d", .Int64NumberKind, ⟨[⟨"host", .STRING "h1"⟩]⟩⟩
    [⟨"A", .STRING "1"⟩, ⟨"B", .INT64 2⟩] (by decide)).2.2.2.mpr
    ⟨by decide, by decide⟩

/-- C14: the service argument influences only the service-name attribute.  For every
record, state of its aggregator and two service names, the two runs of `Record` return
the same error and leave the aggregator in the same state, and either both return the
nil metric, or both a Count, or both a Summary, with the same name and numeric fields
and with attribute maps that have the same keys and agree at every key other than the
service-name key. -/
theorem Record_service_frame {σ : Type} (c : Consts) (service1 service2 : String)
    (r : metricsdk.Record σ) (s : σ) :
    (Record c service1 r s).1.2 = (Record c service2 r s).1.2 ∧
      (Record c service1 r s).2 = (Record c service2 r s).2 ∧
      (match (Record c service1 r s).1.1, (Record c service2 r s).1.1 with
        | none, none => True
        | some (.Count x), some (.Count y) =>
          x.Name = y.Name ∧ x.Value = y.Value ∧
            (∀ k, k ∈ x.Attributes.keys ↔ k ∈ y.Attributes.keys) ∧
            (∀ k, k ≠ c.serviceNameAttrKey → x.Attributes.get k = y.Attributes.get k)
        | some (.Summary x), some (.Summary y) =>
          x.Name = y.Name ∧ x.Count = y.Count ∧ x.Sum = y.Sum ∧ x.Min = y.Min ∧
            x.Max = y.Max ∧
            (∀ k, k ∈ x.Attributes.keys ↔ k ∈ y.Attributes.keys) ∧
            (∀ k, k ≠ c.serviceNameAttrKey → x.Attributes.get k = y.Attributes.get k)
        | _, _ => False) := by
  have hkeys : ∀ k, k ∈ (attributes c service1 r.Descriptor r.Labels).keys ↔
      k ∈ (attributes c service2 r.Descriptor r.Labels).keys := by
    intro k
    rw [attributes_mem_keys, attributes_mem_keys]
  have hget : ∀ k, k ≠ c.serviceNameAttrKey →
      (attributes c service1 r.Descriptor r.Labels).get k =
        (attributes c service2 r.Descriptor r.Labels).get k :=
    fun k hk => attributes_get_frame c service1 service2 r.Descriptor r.Labels k hk
  simp only [Record]
  cases r.Aggregator.asMinMaxSumCount with
  | some a =>
    simp only []
    rw [minMaxSumCount_eq r.Descriptor (attributes c service1 r.Descriptor r.Labels) a s
      (a.Min s).2 (a.Max (a.Min s).2).2
      (a.Sum (a.Max (a.Min s).2).2).2 (a.Count (a.Sum (a.Max (a.Min s).2).2).2).2
      (a.Min s).1.1 (a.Max (a.Min s).2).1.1 (a.Sum (a.Max (a.Min s).2).2).1.1
      (a.Count (a.Sum (a.Max (a.Min s).2).2).2).1.1
      (a.Min s).1.2 (a.Max (a.Min s).2).1.2 (a.Sum (a.Max (a.Min s).2).2).1.2
      (a.Count (a.Sum (a.Max (a.Min s).2).2).2).1.2 rfl rfl rfl rfl,
      minMaxSumCount_eq r.Descriptor (attributes c service2 r.Descriptor r.Labels) a s
      (a.Min s).2 (a.Max (a.Min s).2).2
      (a.Sum (a.Max (a.Min s).2).2).2 (a.Count (a.Sum (a.Max (a.Min s).2).2).2).2
      (a.Min s).1.1 (a.Max (a.Min s).2).1.1 (a.Sum (a.Max (a.Min s).2).2).1.1
      (a.Count (a.Sum (a.Max (a.Min s).2).2).2).1.1
      (a.Min s).1.2 (a.Max (a.Min s).2).1.2 (a.Sum (a.Max (a.Min s).2).2).1.2
      (a.Count (a.Sum (a.Max (a.Min s).2).2).2).1.2 rfl rfl rfl rfl]
    cases (a.Min s).1.2 <;> cases (a.Max (a.Min s).2).1.2 <;>
      cases (a.Sum (a.Max (a.Min s).2).2).1.2 <;>
      cases (a.Count (a.Sum (a.Max (a.Min s).2).2).2).1.2 <;> simp
    exact ⟨hkeys, hget⟩
  | none =>
    simp only []
    cases r.Aggregator.asSum with
    | some a =>
      simp only []
      rw [sum_eq r.Descriptor (attributes c service1 r.Descriptor r.Labels) a s (a.Sum s).2
        (a.Sum s).1.1 (a.Sum s).1.2 rfl,
        sum_eq r.Descriptor (attributes c service2 r.Descriptor r.Labels) a s (a.Sum s).2
        (a.Sum s).1.1 (a.Sum s).1.2 rfl]
      cases (a.Sum s).1.2 <;> simp
      exact ⟨hkeys, hget⟩
    | none => simp

/-- Witness of C14: the services "svc1" and "svc2" on a Sum record with a label keyed
"unit" and a resource attribute keyed "host": same error, and the two maps agree at
"host". -/
theorem Record_service_frame_witness :
    (Record ⟨"service.name", "instrumentation.provider", "p", "collector.name", "c"⟩ "svc1"
        ⟨⟨"n", "1", "d", .Int64NumberKind, ⟨[⟨"host", .STRING "h1"⟩]⟩⟩,
          [⟨"unit", .STRING "s"⟩], Aggregator.ofSum ⟨Retrieval.const 7 none⟩⟩ ()).1.2 =
      (Record ⟨"service.name", "instrumentation.provider", "p", "collector.name", "c"⟩ "svc2"
        ⟨⟨"n", "1", "d", .Int64NumberKind, ⟨[⟨"host", .STRING "h1"⟩]⟩⟩,
          [⟨"unit", .STRING "s"⟩], Aggregator.ofSum ⟨Retrieval.const 7 none⟩⟩ ()).1.2 ∧
      (attributes ⟨"service.name", "instrumentation.provider", "p", "collector.name", "c"⟩
        "svc1" ⟨"n", "1", "d", .Int64NumberKind, ⟨[⟨"host", .STRING "h1"⟩]⟩⟩
        [⟨"unit", .STRING "s"⟩]).get "host" =
      (attributes ⟨"service.name", "instrumentation.provider", "p", "collector.name", "c"⟩
        "svc2" ⟨"n", "1", "d", .Int64NumberKind, ⟨[⟨"host", .STRING "h1"⟩]⟩⟩
        [⟨"unit", .STRING "s"⟩]).get "host" :=
  have h := Record_service_frame
    ⟨"service.name", "instrumentation.provider", "p", "collector.name", "c"⟩ "svc1" "svc2"
    ⟨⟨"n", "1", "d", .Int64NumberKind, ⟨[⟨"host", .STRING "h1"⟩]⟩⟩,
      [⟨"unit", .STRING "s"⟩], Aggregator.ofSum ⟨Retrieval.const 7 none⟩⟩ ()
  have h3 : "n" = "n" ∧ Number.CoerceToFloat64 7 .Int64NumberKind =
        Number.CoerceToFloat64 7 .Int64NumberKind ∧
      (∀ k, k ∈ (attributes
          ⟨"service.name", "instrumentation.provider", "p", "collector.name", "c"⟩
          "svc1" ⟨"n", "1", "d", .Int64NumberKind, ⟨[⟨"host", .STRING "h1"⟩]⟩⟩
          [⟨"unit", .STRING "s"⟩]).keys ↔
        k ∈ (attributes
          ⟨"service.name", "instrumentation.provider", "p", "collector.name", "c"⟩
          "svc2" ⟨"n", "1", "d", .Int64NumberKind, ⟨[⟨"host", .STRING "h1"⟩]⟩⟩
          [⟨"unit", .STRING "s"⟩]).keys) ∧
      (∀ k, k ≠ "service.name" →
        (attributes ⟨"service.name", "instrumentation.provider", "p", "collector.name", "c"⟩
          "svc1" ⟨"n", "1", "d", .Int64NumberKind, ⟨[⟨"host", .STRING "h1"⟩]⟩⟩
          [⟨"unit", .STRING "s"⟩]).get k =
        (attributes ⟨"service.name", "instrumentation.provider", "p", "collector.name", "c"⟩
          "svc2" ⟨"n", "1", "d", .Int64NumberKind, ⟨[⟨"host", .STRING "h1"⟩]⟩⟩
          [⟨"unit", .STRING "s"⟩]).get k) := h.2.2
  ⟨h.1, h3.2.2.2 "host" (by decide)⟩

end Transform
